import Mathlib

/-! Shallow embedding of `nodes/auto/downloader.py` (class `AutoModelDownloader`)
and proofs about the resolution/memoization engine it implements: workflow
fingerprinting, reference deduplication, the lookup batch run on an isolated
worker thread with a timeout, the cached model list and its merge operation,
the selection path, and serialize/deserialize of the instance state.

External collaborators (`scan_workflow`, `search_for_model`, `hashlib.md5`,
`PromptServer.send_sync`) are modelled as parameters: the scan and lookup
outcomes are inputs of the embedding, the digest is an arbitrary function
`String → String`, and the fire-and-forget frontend notification has no
effect on the returned value or the instance state, so it is omitted. -/

set_option maxHeartbeats 1000000

deriving instance DecidableEq for Except

namespace AutoModelDownloader

/-- An artifact reference: the Python dict with keys `filename`, `local_path`
and (once a lookup succeeded) `repo_id` that flows through
`AutoModelDownloader.process`. -/
structure Model where
  filename : String
  local_path : String
  repo_id : Option String := none
deriving DecidableEq

/-- Result record of the external naming-service client `search_for_model`:
a dict that may carry a `repo_id` key. A Python `None` result is `Option.none`
at the call site (see `LookupOutcome.ret`). -/
structure SearchResult where
  repo_id : Option String := none
deriving DecidableEq

/-- Outcome of one `search_for_model(filename)` call: the coroutine either
raises an exception or returns a value (`None` or a result dict). -/
inductive LookupOutcome where
  | raise : LookupOutcome
  | ret : Option SearchResult → LookupOutcome
deriving DecidableEq

/-- Python truthiness of the optional string `result.get('repo_id')`:
a missing key (`None`) and the empty string are falsy. -/
def truthy (o : Option String) : Bool :=
  match o with
  | none => false
  | some s => decide (s ≠ "")

/-- The per-instance mutable state of `AutoModelDownloader` that the claims
are about: `self.missing_models`, `self.initialized`,
`self.last_workflow_hash` (set in `__init__`, mutated by `process` and
`deserialize`). -/
structure DownloaderState where
  missing_models : List Model
  initialized : Bool
  last_workflow_hash : Option String
deriving DecidableEq

/-- The exceptions `process` can raise: `Exception("Select a model")`,
`Exception("Model not found")`, `Exception("No repository found")`. -/
inductive ProcError where
  | selectAModel : ProcError
  | modelNotFound : ProcError
  | noRepositoryFound : ProcError
deriving DecidableEq

/-- What `_run_async_in_thread` hands back to its caller, together with
whether `future.cancel()` was invoked on the in-flight worker. -/
structure RunResult (α : Type) where
  value : Option α
  cancelSignalled : Bool

/-- The ceiling passed to `future.result(timeout=60)`. -/
def LOOKUP_TIMEOUT : Nat := 60

/-- Body of `run_in_thread`: run the coroutine to completion on a fresh event
loop; any exception escaping the coroutine is caught and turned into `None`. -/
def run_in_thread {α : Type} (body : Except Unit α) : Option α :=
  match body with
  | .ok v => some v
  | .error _ => none

/-- `_run_async_in_thread`: submit `run_in_thread` to the single-worker
executor and wait at most `LOOKUP_TIMEOUT` on the future; past the deadline
`future.result` raises, the handler calls `future.cancel()` and returns
`None`. `elapsed` is the time the worker takes to finish. -/
def _run_async_in_thread {α : Type} (elapsed : Nat) (body : Except Unit α) : RunResult α :=
  if elapsed ≤ LOOKUP_TIMEOUT then
    { value := run_in_thread body, cancelSignalled := false }
  else
    { value := none, cancelSignalled := true }

/-- The dedup key used by the comprehension in `process`:
`(model['filename'], model['local_path'])`. -/
def dedupeKey (m : Model) : String × String := (m.filename, m.local_path)

/-- The dedup comprehension in `process`, with the walrus-updated `seen` set
made explicit: keep a model iff its key was not seen before, adding each kept
key to `seen`. -/
def dedupeAux (seen : List (String × String)) : List Model → List Model
  | [] => []
  | m :: ms =>
    if dedupeKey m ∈ seen then dedupeAux seen ms
    else m :: dedupeAux (dedupeKey m :: seen) ms

/-- `unique_models = [model for model in self.missing_models if not (identifier
:= (model['filename'], model['local_path'])) in seen and not
seen.add(identifier)]` with `seen` initially empty. -/
def dedupe (l : List Model) : List Model := dedupeAux [] l

/-- The inner coroutine `search_models_async` of `process`: look each model's
filename up in order; a truthy result with a truthy `repo_id` sets the model's
`repo_id` and appends it to the results, anything else is skipped with a log
line. There is no per-model exception handler, so a raising lookup propagates
out of the loop (`Except.error`). -/
def search_models_async (lk : String → LookupOutcome) : List Model → Except Unit (List Model)
  | [] => .ok []
  | m :: ms =>
    match lk m.filename with
    | .raise => .error ()
    | .ret none => search_models_async lk ms
    | .ret (some res) =>
      if truthy res.repo_id then
        Except.map (fun rs => { m with repo_id := res.repo_id } :: rs)
          (search_models_async lk ms)
      else
        search_models_async lk ms

/-- One iteration of the outer loop of `_update_model_list`: scan
`self.missing_models` for the first entry with the incoming model's filename;
on a hit assign `existing_model['repo_id'] = model.get('repo_id')` and break,
and with no hit (`for`/`else`) append the incoming model. -/
def updateOne (m : Model) : List Model → List Model
  | [] => [m]
  | e :: es =>
    if e.filename = m.filename then { e with repo_id := m.repo_id } :: es
    else e :: updateOne m es

/-- `_update_model_list(models)` restricted to its effect on
`self.missing_models` (the widget-options payload the method also builds is
discarded by its only caller). `missing` is the state field the loop
mutates. -/
def _update_model_list (models : List Model) (missing : List Model) : List Model :=
  models.foldl (fun acc m => updateOne m acc) missing

/-- A node descriptor of the workflow mapping: its `class_type` field (absent
keys read through `.get` are `none`) plus the remaining fields, kept opaque as
key/value strings. -/
structure Node where
  class_type : Option String
  fields : List (String × String)
deriving DecidableEq

/-- The dict comprehension of `_get_workflow_hash`: drop every node whose
`class_type` equals `'Auto Model Downloader'`. The workflow dict is modelled
as an association list in insertion order with pairwise distinct keys. -/
def filtered_prompt (p : List (String × Node)) : List (String × Node) :=
  p.filter (fun kv => decide (kv.2.class_type ≠ some "Auto Model Downloader"))

/-- Insert one key/node pair into a key-sorted association list. -/
def insertSorted (kv : String × Node) : List (String × Node) → List (String × Node)
  | [] => [kv]
  | x :: xs => if kv.1 ≤ x.1 then kv :: x :: xs else x :: insertSorted kv xs

/-- Sort an association list by key (the `sort_keys=True` of `json.dumps`). -/
def sortByKey (l : List (String × Node)) : List (String × Node) :=
  l.foldr insertSorted []

/-- Deterministic text form of one node descriptor, standing in for its JSON
serialization. -/
def encodeNode (n : Node) : String :=
  (match n.class_type with
   | none => ""
   | some c => "class_type=" ++ c ++ ";") ++
  String.join (n.fields.map (fun f => f.1 ++ "=" ++ f.2 ++ ";"))

/-- `json.dumps(filtered_prompt, sort_keys=True)`: a deterministic text form
of the mapping with keys sorted. -/
def json_dumps_sorted (p : List (String × Node)) : String :=
  String.join ((sortByKey p).map (fun kv => "\"" ++ kv.1 ++ "\":" ++ encodeNode kv.2 ++ ","))

/-- `_get_workflow_hash` on an already-parsed prompt mapping: filter out the
downloader's own nodes, dump with sorted keys, digest. `md5` abstracts
`hashlib.md5(...).hexdigest()`, an arbitrary deterministic digest. (The
`isinstance(prompt, str)` branch that first parses a text prompt with
`json.loads` is not modelled; no claim is about it.) -/
def _get_workflow_hash (md5 : String → String) (p : List (String × Node)) : String :=
  md5 (json_dumps_sorted (filtered_prompt p))

/-- The selection tail of `process` (its last 16 lines): find the first cached
model with the selected filename, raise `Model not found` when there is none,
raise `No repository found` when `selected_model.get('repo_id', '')` is falsy,
else return the `(repo_id, filename, local_path)` triple. -/
def selectModel (missing : List Model) (select_model : String) :
    Except ProcError (String × String × String) :=
  match missing.find? (fun e => decide (e.filename = select_model)) with
  | none => .error .modelNotFound
  | some m =>
    if m.repo_id.getD "" = "" then .error .noRepositoryFound
    else .ok (m.repo_id.getD "", m.filename, m.local_path)

/-- The external inputs of one `process` call: how long the scan worker and
the search worker take, what the `scan_workflow(prompt)` coroutine does
(returns a model list or raises), and what `search_for_model` does per
filename. -/
structure ScanEnv where
  scanElapsed : Nat
  scanBody : Except Unit (List Model)
  lookup : String → LookupOutcome
  searchElapsed : Nat

/-- `self.missing_models = self._run_async_in_thread(scan_workflow, prompt)`
followed by the `None`-to-`[]` normalization. -/
def scannedModels (env : ScanEnv) : List Model :=
  ((_run_async_in_thread env.scanElapsed env.scanBody).value).getD []

/-- The deduplicated scan result (`unique_models`). -/
def uniqueModels (env : ScanEnv) : List Model :=
  dedupe (scannedModels env)

/-- The search step's worker run:
`self._run_async_in_thread(search_models_async, self.missing_models)`. -/
def searchRun (env : ScanEnv) : RunResult (List Model) :=
  _run_async_in_thread env.searchElapsed (search_models_async env.lookup (uniqueModels env))

/-- `valid_models = self._run_async_in_thread(...) or []`. -/
def validModels (env : ScanEnv) : List Model :=
  ((searchRun env).value).getD []

/-- `AutoModelDownloader.process(select_model, prompt, node_id)`. The scan
branch is taken when the selection is missing/default or the workflow hash
changed; it scans, dedupes, looks up, keeps resolved models, and returns the
sentinel triple with the hash NOT updated when nothing resolved, else merges
(the call `self._update_model_list(self.missing_models)` aliases its argument
to the state field, so the returned first element is read from the merged
list), notifies the frontend, stores the new hash and returns the first
model's triple. The selection tail otherwise serves the request from the
cached list without touching the state. -/
def process (md5 : String → String) (env : ScanEnv) (prompt : List (String × Node))
    (select_model : String) (st : DownloaderState) :
    Except ProcError ((String × String × String) × DownloaderState) :=
  let current_hash := _get_workflow_hash md5 prompt
  if select_model = "" ∨ select_model = "Scan First" ∨ st.last_workflow_hash ≠ some current_hash then
    let valid := validModels env
    if valid = [] then
      .ok (("No valid models found", "", ""), { st with missing_models := valid })
    else
      let merged := _update_model_list valid valid
      let first := merged.headD { filename := "", local_path := "", repo_id := none }
      .ok ((first.repo_id.getD "", first.filename, first.local_path),
           { st with missing_models := merged, last_workflow_hash := some current_hash })
  else if select_model = "" ∨ select_model = "Scan First" then
    .error .selectAModel
  else
    Except.map (fun t => (t, st)) (selectModel st.missing_models select_model)

/-- The persisted blob: a dict that may lack any of the three keys (an older
schema); a present `last_workflow_hash` key may hold `None` or a string. -/
structure SerializedBlob where
  missing_models : Option (List Model) := none
  initialized : Option Bool := none
  last_workflow_hash : Option (Option String) := none
deriving DecidableEq

/-- `serialize`: the dict with the three instance fields. -/
def serialize (st : DownloaderState) : SerializedBlob :=
  { missing_models := some st.missing_models
    initialized := some st.initialized
    last_workflow_hash := some st.last_workflow_hash }

/-- `deserialize(data)`: restore the three fields with `data.get` defaults
`[]`, `False`, `None`. `st` is the prior `self` state, wholly overwritten. -/
def deserialize (data : SerializedBlob) (st : DownloaderState) : DownloaderState :=
  { st with
    missing_models := data.missing_models.getD []
    initialized := data.initialized.getD false
    last_workflow_hash := data.last_workflow_hash.getD none }

/-- A model the lookup step accepted: a present, non-empty `repo_id`. -/
def fullyResolved (m : Model) : Prop := ∃ r, m.repo_id = some r ∧ r ≠ ""

/-- Concrete lookup for the C1 scenario: filename B raises, everything else
resolves to repository `"r" ++ filename`. -/
def c1lk : String → LookupOutcome := fun f =>
  if f = "B" then .raise else .ret (some { repo_id := some ("r" ++ f) })

/-- Concrete reference A of the C1 scenario. -/
def c1A : Model := { filename := "A", local_path := "p" }

/-- Concrete reference B of the C1 scenario (its lookup raises). -/
def c1B : Model := { filename := "B", local_path := "p" }

/-- Concrete reference C of the C1 scenario. -/
def c1C : Model := { filename := "C", local_path := "p" }

/-- Concrete environment whose search worker takes 61 > 60 units. -/
def c3env : ScanEnv :=
  { scanElapsed := 0
    scanBody := .ok [{ filename := "A", local_path := "p" }]
    lookup := fun _ => .ret (some { repo_id := some "rA" })
    searchElapsed := 61 }

/-- Concrete environment whose scan finds zero references. -/
def c4env : ScanEnv :=
  { scanElapsed := 0
    scanBody := .ok []
    lookup := fun _ => .ret none
    searchElapsed := 0 }

/-- Concrete environment whose scan finds one reference that resolves. -/
def c6env : ScanEnv :=
  { scanElapsed := 0
    scanBody := .ok [{ filename := "A", local_path := "p" }]
    lookup := fun f => if f = "A" then .ret (some { repo_id := some "rA" }) else .ret none
    searchElapsed := 0 }

/-- Concrete environment whose scan finds one reference resolving to
`org/repo`. -/
def c10env : ScanEnv :=
  { scanElapsed := 0
    scanBody := .ok [{ filename := "M", local_path := "lp" }]
    lookup := fun f => if f = "M" then .ret (some { repo_id := some "org/repo" }) else .raise
    searchElapsed := 0 }

/-- `truthy` holds exactly on present non-empty strings. -/
theorem truthy_iff (o : Option String) : truthy o = true ↔ ∃ r, o = some r ∧ r ≠ "" := by
  cases o <;> simp [truthy]

/-- A raising lookup anywhere in the batch makes the whole coroutine raise. -/
theorem search_raise_error (lk : String → LookupOutcome) :
    ∀ l : List Model, (∃ m ∈ l, lk m.filename = .raise) →
      search_models_async lk l = .error () := by
  intro l
  induction l with
  | nil => rintro ⟨m, hm, -⟩; cases hm
  | cons m ms ih =>
    rintro ⟨x, hx, hraise⟩
    rcases List.mem_cons.mp hx with rfl | hx2
    · simp [search_models_async, hraise]
    · have herr := ih ⟨x, hx2, hraise⟩
      cases h : lk m.filename with
      | raise => simp [search_models_async, h]
      | ret r =>
        cases r with
        | none => simp [search_models_async, h, herr]
        | some res =>
          by_cases ht : truthy res.repo_id
          · simp [search_models_async, h, ht, herr, Except.map]
          · simp [search_models_async, h, ht, herr]

/-- Every model returned by a completed lookup batch carries a present,
non-empty `repo_id`. -/
theorem search_ok_resolved (lk : String → LookupOutcome) :
    ∀ l rs : List Model, search_models_async lk l = .ok rs →
      ∀ m ∈ rs, fullyResolved m := by
  intro l
  induction l with
  | nil =>
    intro rs h m hm
    simp [search_models_async] at h
    subst h; cases hm
  | cons m0 ms ih =>
    intro rs h m hm
    cases hlk : lk m0.filename with
    | raise => simp [search_models_async, hlk] at h
    | ret r =>
      cases r with
      | none =>
        simp only [search_models_async, hlk] at h
        exact ih rs h m hm
      | some res =>
        by_cases ht : truthy res.repo_id
        · simp only [search_models_async, hlk, ht, if_pos] at h
          cases hrec : search_models_async lk ms with
          | error e => rw [hrec] at h; simp [Except.map] at h
          | ok rs2 =>
            rw [hrec] at h
            simp [Except.map] at h
            subst h
            rcases List.mem_cons.mp hm with rfl | hm2
            · rcases (truthy_iff res.repo_id).mp ht with ⟨rr, hrr, hne⟩
              exact ⟨rr, by simp [hrr], hne⟩
            · exact ih rs2 hrec m hm2
        · simp only [search_models_async, hlk, ht, if_neg, Bool.false_eq_true,
            not_false_eq_true] at h
          exact ih rs h m hm

/-- In a completed batch, every input model whose lookup resolved is present
(with its `repo_id` filled in) in the returned list. -/
theorem search_ok_mem (lk : String → LookupOutcome) :
    ∀ l rs : List Model, search_models_async lk l = .ok rs →
      ∀ m ∈ l, ∀ res r, lk m.filename = .ret (some res) → res.repo_id = some r → r ≠ "" →
        { m with repo_id := some r } ∈ rs := by
  intro l
  induction l with
  | nil => intro rs h m hm; cases hm
  | cons m0 ms ih =>
    intro rs h m hm res r h1 h2 h3
    rcases List.mem_cons.mp hm with rfl | hm2
    · have ht : truthy res.repo_id = true := (truthy_iff res.repo_id).mpr ⟨r, h2, h3⟩
      simp only [search_models_async, h1, ht, if_pos] at h
      cases hrec : search_models_async lk ms with
      | error e => rw [hrec] at h; simp [Except.map] at h
      | ok rs2 =>
        rw [hrec] at h
        simp [Except.map] at h
        subst h
        rw [← h2]
        exact List.mem_cons_self _ _
    · cases hlk : lk m0.filename with
      | raise => simp [search_models_async, hlk] at h
      | ret rr =>
        cases rr with
        | none =>
          simp only [search_models_async, hlk] at h
          exact ih rs h m hm2 res r h1 h2 h3
        | some res0 =>
          by_cases ht : truthy res0.repo_id
          · simp only [search_models_async, hlk, ht, if_pos] at h
            cases hrec : search_models_async lk ms with
            | error e => rw [hrec] at h; simp [Except.map] at h
            | ok rs2 =>
              rw [hrec] at h
              simp [Except.map] at h
              subst h
              exact List.mem_cons_of_mem _ (ih rs2 hrec m hm2 res r h1 h2 h3)
          · simp only [search_models_async, hlk, ht, if_neg, Bool.false_eq_true,
              not_false_eq_true] at h
            exact ih rs h m hm2 res r h1 h2 h3

/-- `updateOne` keeps every existing entry's identity pair (it may rewrite the
entry's `repo_id`, never its filename or local path, and deletes nothing). -/
theorem updateOne_identity (m : Model) :
    ∀ l : List Model, ∀ e ∈ l, ∃ e2 ∈ updateOne m l,
      e2.filename = e.filename ∧ e2.local_path = e.local_path := by
  intro l
  induction l with
  | nil => intro e he; cases he
  | cons x xs ih =>
    intro e he
    by_cases hx : x.filename = m.filename
    · simp only [updateOne, if_pos hx]
      rcases List.mem_cons.mp he with rfl | he2
      · exact ⟨{ e with repo_id := m.repo_id }, List.mem_cons_self _ _, rfl, rfl⟩
      · exact ⟨e, List.mem_cons_of_mem _ he2, rfl, rfl⟩
    · simp only [updateOne, if_neg hx]
      rcases List.mem_cons.mp he with rfl | he2
      · exact ⟨e, List.mem_cons_self _ _, rfl, rfl⟩
      · rcases ih e he2 with ⟨e2, he2m, hp⟩
        exact ⟨e2, List.mem_cons_of_mem _ he2m, hp⟩

/-- After `updateOne m l` the incoming filename is present. -/
theorem updateOne_mem_filename (m : Model) :
    ∀ l : List Model, ∃ e ∈ updateOne m l, e.filename = m.filename := by
  intro l
  induction l with
  | nil => exact ⟨m, List.mem_cons_self _ _, rfl⟩
  | cons x xs ih =>
    by_cases hx : x.filename = m.filename
    · simp only [updateOne, if_pos hx]
      exact ⟨{ x with repo_id := m.repo_id }, List.mem_cons_self _ _, hx⟩
    · simp only [updateOne, if_neg hx]
      rcases ih with ⟨e, hem, he⟩
      exact ⟨e, List.mem_cons_of_mem _ hem, he⟩

/-- `updateOne` with a resolved incoming model keeps a fully-resolved list
fully resolved. -/
theorem updateOne_resolved (m : Model) (hm : fullyResolved m) :
    ∀ l : List Model, (∀ e ∈ l, fullyResolved e) →
      ∀ e ∈ updateOne m l, fullyResolved e := by
  intro l
  induction l with
  | nil =>
    intro _ e he
    rcases List.mem_cons.mp he with rfl | h2
    · exact hm
    · cases h2
  | cons x xs ih =>
    intro hl e he
    by_cases hx : x.filename = m.filename
    · simp only [updateOne, if_pos hx] at he
      rcases List.mem_cons.mp he with rfl | h2
      · rcases hm with ⟨r, hr, hne⟩
        exact ⟨r, by simp [hr], hne⟩
      · exact hl e (List.mem_cons_of_mem _ h2)
    · simp only [updateOne, if_neg hx] at he
      rcases List.mem_cons.mp he with rfl | h2
      · exact hl e (List.mem_cons_self _ _)
      · exact ih (fun a ha => hl a (List.mem_cons_of_mem _ ha)) e h2

/-- When the incoming filename matches, `updateOne` rewrites the first
matching entry's `repo_id` in place and appends nothing. -/
theorem updateOne_match (m : Model) :
    ∀ (l1 : List Model) (e : Model) (l2 : List Model),
      (∀ x ∈ l1, x.filename ≠ m.filename) → e.filename = m.filename →
      updateOne m (l1 ++ e :: l2) = l1 ++ { e with repo_id := m.repo_id } :: l2 := by
  intro l1
  induction l1 with
  | nil => intro e l2 _ he; simp [updateOne, he]
  | cons x xs ih =>
    intro e l2 hx he
    have hxne : ¬ x.filename = m.filename := hx x (List.mem_cons_self _ _)
    simp only [List.cons_append, updateOne, if_neg hxne, List.append_eq]
    rw [ih e l2 (fun a ha => hx a (List.mem_cons_of_mem _ ha)) he]

/-- When no entry has the incoming filename, `updateOne` appends the incoming
model. -/
theorem updateOne_nomatch (m : Model) :
    ∀ l : List Model, (∀ e ∈ l, e.filename ≠ m.filename) →
      updateOne m l = l ++ [m] := by
  intro l
  induction l with
  | nil => intro _; rfl
  | cons x xs ih =>
    intro h
    have hxne : ¬ x.filename = m.filename := h x (List.mem_cons_self _ _)
    simp only [updateOne, if_neg hxne, List.cons_append]
    rw [ih (fun a ha => h a (List.mem_cons_of_mem _ ha))]

/-- The full merge keeps every existing entry's identity pair. -/
theorem uml_identity :
    ∀ (models l : List Model), ∀ e ∈ l, ∃ e2 ∈ _update_model_list models l,
      e2.filename = e.filename ∧ e2.local_path = e.local_path := by
  intro models
  induction models with
  | nil => intro l e he; exact ⟨e, he, rfl, rfl⟩
  | cons m ms ih =>
    intro l e he
    rcases updateOne_identity m l e he with ⟨e1, he1, hf1, hp1⟩
    rcases ih (updateOne m l) e1 he1 with ⟨e2, he2, hf2, hp2⟩
    exact ⟨e2, he2, hf2.trans hf1, hp2.trans hp1⟩

/-- A filename present before the merge is present after it. -/
theorem uml_filename_present :
    ∀ (models l : List Model) (f : String), (∃ e ∈ l, e.filename = f) →
      ∃ e ∈ _update_model_list models l, e.filename = f := by
  intro models
  induction models with
  | nil => intro l f h; exact h
  | cons m ms ih =>
    intro l f h
    rcases h with ⟨e, he, hf⟩
    rcases updateOne_identity m l e he with ⟨e1, he1, hf1, -⟩
    exact ih (updateOne m l) f ⟨e1, he1, hf1.trans hf⟩

/-- Every incoming filename is present after the merge. -/
theorem uml_mem_filename :
    ∀ (models l : List Model), ∀ m ∈ models,
      ∃ e ∈ _update_model_list models l, e.filename = m.filename := by
  intro models
  induction models with
  | nil => intro l m hm; cases hm
  | cons m0 ms ih =>
    intro l m hm
    rcases List.mem_cons.mp hm with rfl | hm2
    · exact uml_filename_present ms (updateOne m l) m.filename (updateOne_mem_filename m l)
    · exact ih (updateOne m0 l) m hm2

/-- Merging resolved models into a fully-resolved list yields a
fully-resolved list. -/
theorem uml_resolved :
    ∀ (models l : List Model), (∀ m ∈ models, fullyResolved m) →
      (∀ e ∈ l, fullyResolved e) →
      ∀ e ∈ _update_model_list models l, fullyResolved e := by
  intro models
  induction models with
  | nil => intro l _ hl e he; exact hl e he
  | cons m ms ih =>
    intro l hms hl e he
    exact ih (updateOne m l)
      (fun a ha => hms a (List.mem_cons_of_mem _ ha))
      (updateOne_resolved m (hms m (List.mem_cons_self _ _)) l hl) e he

/-- Running the dedup pass over its own output changes nothing (with any
initial `seen` set). -/
theorem dedupeAux_idem :
    ∀ (l : List Model) (seen : List (String × String)),
      dedupeAux seen (dedupeAux seen l) = dedupeAux seen l := by
  intro l
  induction l with
  | nil => intro seen; rfl
  | cons m ms ih =>
    intro seen
    by_cases hk : dedupeKey m ∈ seen
    · simp only [dedupeAux, if_pos hk]
      exact ih seen
    · simp only [dedupeAux, if_neg hk]
      rw [ih (dedupeKey m :: seen)]

/-- The dedup pass returns a sublist of its input: survivors keep their
first-seen order. -/
theorem dedupeAux_sublist :
    ∀ (l : List Model) (seen : List (String × String)),
      List.Sublist (dedupeAux seen l) l := by
  intro l
  induction l with
  | nil => intro seen; exact List.Sublist.refl []
  | cons m ms ih =>
    intro seen
    by_cases hk : dedupeKey m ∈ seen
    · simp only [dedupeAux, if_pos hk]
      exact List.Sublist.cons m (ih seen)
    · simp only [dedupeAux, if_neg hk]
      exact List.Sublist.cons₂ m (ih (dedupeKey m :: seen))

/-- Every unseen key occurring in the input still occurs in the dedup
output. -/
theorem dedupeAux_covers :
    ∀ (l : List Model) (seen : List (String × String)), ∀ m ∈ l, dedupeKey m ∉ seen →
      ∃ m2 ∈ dedupeAux seen l, dedupeKey m2 = dedupeKey m := by
  intro l
  induction l with
  | nil => intro seen m hm; cases hm
  | cons m0 ms ih =>
    intro seen m hm hns
    by_cases hk : dedupeKey m0 ∈ seen
    · simp only [dedupeAux, if_pos hk]
      rcases List.mem_cons.mp hm with rfl | hm2
      · exact absurd hk hns
      · exact ih seen m hm2 hns
    · simp only [dedupeAux, if_neg hk]
      rcases List.mem_cons.mp hm with rfl | hm2
      · exact ⟨m, List.mem_cons_self _ _, rfl⟩
      · by_cases heq : dedupeKey m = dedupeKey m0
        · exact ⟨m0, List.mem_cons_self _ _, heq.symm⟩
        · have hnm : dedupeKey m ∉ dedupeKey m0 :: seen := by
            intro hc
            rcases List.mem_cons.mp hc with h1 | h2
            · exact heq h1
            · exact hns h2
          rcases ih (dedupeKey m0 :: seen) m hm2 hnm with ⟨m2, hm2m, hkey⟩
          exact ⟨m2, List.mem_cons_of_mem _ hm2m, hkey⟩

/-- Every survivor of the dedup pass is the FIRST input entry with its key
(and its key was not in the initial `seen` set). -/
theorem dedupeAux_first :
    ∀ (l : List Model) (seen : List (String × String)), ∀ m ∈ dedupeAux seen l,
      dedupeKey m ∉ seen ∧
      l.find? (fun x => decide (dedupeKey x = dedupeKey m)) = some m := by
  intro l
  induction l with
  | nil => intro seen m hm; cases hm
  | cons m0 ms ih =>
    intro seen m hm
    by_cases hk : dedupeKey m0 ∈ seen
    · simp only [dedupeAux, if_pos hk] at hm
      rcases ih seen m hm with ⟨hns, hfind⟩
      refine ⟨hns, ?_⟩
      have hne : ¬ dedupeKey m0 = dedupeKey m := by
        intro hc; rw [hc] at hk; exact hns hk
      simp [List.find?_cons, hne, hfind]
    · simp only [dedupeAux, if_neg hk] at hm
      rcases List.mem_cons.mp hm with rfl | hm2
      · exact ⟨hk, by simp [List.find?_cons]⟩
      · rcases ih (dedupeKey m0 :: seen) m hm2 with ⟨hns, hfind⟩
        have hne : ¬ dedupeKey m0 = dedupeKey m := by
          intro hc
          exact hns (by rw [← hc]; exact List.mem_cons_self _ _)
        refine ⟨fun hc => hns (List.mem_cons_of_mem _ hc), ?_⟩
        simp [List.find?_cons, hne, hfind]

/-- Every model surviving the search step of `process` is fully resolved
(whatever the worker timing and lookup outcomes). -/
theorem validModels_resolved (env : ScanEnv) :
    ∀ m ∈ validModels env, fullyResolved m := by
  intro m hm
  unfold validModels searchRun _run_async_in_thread at hm
  by_cases ht : env.searchElapsed ≤ LOOKUP_TIMEOUT
  · rw [if_pos ht] at hm
    cases hb : search_models_async env.lookup (uniqueModels env) with
    | error e => rw [hb] at hm; simp [run_in_thread] at hm
    | ok rs =>
      rw [hb] at hm
      simp only [run_in_thread, Option.getD_some] at hm
      exact search_ok_resolved env.lookup (uniqueModels env) rs hb m hm
  · rw [if_neg ht] at hm
    simp at hm

/-- The selection tail never raises `Select a model`. -/
theorem selectModel_not_selectAModel (l : List Model) (s : String) :
    selectModel l s ≠ .error .selectAModel := by
  unfold selectModel
  cases l.find? (fun e => decide (e.filename = s)) with
  | none => simp
  | some m =>
    by_cases h : m.repo_id.getD "" = ""
    · simp [if_pos h]
    · simp [if_neg h]

/-- The scan branch of `process` always returns normally. -/
theorem process_branch_ok (md5 : String → String) (env : ScanEnv)
    (prompt : List (String × Node)) (sel : String) (st : DownloaderState)
    (hb : sel = "" ∨ sel = "Scan First" ∨ st.last_workflow_hash ≠ some (_get_workflow_hash md5 prompt)) :
    ∃ out, process md5 env prompt sel st = .ok out := by
  unfold process
  rw [if_pos hb]
  by_cases hv : validModels env = []
  · rw [if_pos hv]
    exact ⟨_, rfl⟩
  · rw [if_neg hv]
    exact ⟨_, rfl⟩

/-- C1 (amended): lookups that complete without raising are isolated — a batch
in which no lookup raises returns, for every reference whose lookup resolved,
that reference with its `repo_id` filled in; but a lookup that RAISES aborts
the whole batch: the orchestrator yields the empty list, dropping even the
references that had already resolved. -/
theorem C1_partial_failure_isolation (lk : String → LookupOutcome) (l : List Model) (elapsed : Nat) :
    ((∃ m ∈ l, lk m.filename = .raise) →
      ((_run_async_in_thread elapsed (search_models_async lk l)).value).getD [] = []) ∧
    (∀ rs, search_models_async lk l = .ok rs →
      ∀ m ∈ l, ∀ res r, lk m.filename = .ret (some res) → res.repo_id = some r → r ≠ "" →
        { m with repo_id := some r } ∈ rs) := by
  constructor
  · intro hex
    have herr := search_raise_error lk l hex
    unfold _run_async_in_thread
    split
    · simp [run_in_thread, herr]
    · simp
  · intro rs h m hm res r h1 h2 h3
    exact search_ok_mem lk l rs h m hm res r h1 h2 h3

/-- C1 counterexample: with references A, B, C where B's lookup raises and A
and C resolve, the orchestrated batch result is the EMPTY list — it contains
neither resolved A nor resolved C, contrary to the claim. -/
theorem C1_counterexample :
    ((_run_async_in_thread 0 (search_models_async c1lk [c1A, c1B, c1C])).value).getD [] = [] ∧
    { c1A with repo_id := some "rA" } ∉
      ((_run_async_in_thread 0 (search_models_async c1lk [c1A, c1B, c1C])).value).getD [] ∧
    { c1C with repo_id := some "rC" } ∉
      ((_run_async_in_thread 0 (search_models_async c1lk [c1A, c1B, c1C])).value).getD [] := by
  decide

/-- C1 witness: the amended theorem applied to the concrete raising batch. -/
theorem C1_witness :
    ((_run_async_in_thread 7 (search_models_async c1lk [c1A, c1B, c1C])).value).getD [] = [] := by
  exact (C1_partial_failure_isolation c1lk [c1A, c1B, c1C] 7).1 ⟨c1B, by decide, by decide⟩

/-- C2 (amended): the merge keys on FILENAME alone, ignoring `local_path` —
after `_update_model_list X missing` every prior entry's identity pair is
still present (nothing is deleted) and every incoming FILENAME is present; an
incoming artifact whose filename matches an existing entry rewrites the first
such entry's `repo_id` in place instead of being appended, and one whose
filename matches nothing is appended. An incoming identity pair whose
filename collides with an entry holding a different `local_path` is therefore
not itself added (see the counterexample). -/
theorem C2_merge_monotonicity (models l : List Model) :
    (∀ e ∈ l, ∃ e2 ∈ _update_model_list models l,
        e2.filename = e.filename ∧ e2.local_path = e.local_path) ∧
    (∀ m ∈ models, ∃ e ∈ _update_model_list models l, e.filename = m.filename) ∧
    (∀ m : Model, ∀ (l1 : List Model) (e : Model) (l2 : List Model),
        (∀ x ∈ l1, x.filename ≠ m.filename) → e.filename = m.filename →
        updateOne m (l1 ++ e :: l2) = l1 ++ { e with repo_id := m.repo_id } :: l2) ∧
    (∀ m : Model, (∀ e ∈ l, e.filename ≠ m.filename) → updateOne m l = l ++ [m]) := by
  refine ⟨uml_identity models l, uml_mem_filename models l, ?_, ?_⟩
  · intro m l1 e l2 h1 h2
    exact updateOne_match m l1 e l2 h1 h2
  · intro m h
    exact updateOne_nomatch m l h

/-- C2 counterexample: merging X = [(f, p2, r2)] into a cache holding
(f, p1, r1) rewrites the existing entry's `repo_id` (filename-only match) and
the incoming identity (f, p2) is NOT present afterwards, contrary to the
claim's (filename, local_path) identity semantics. -/
theorem C2_counterexample :
    _update_model_list [{ filename := "f", local_path := "p2", repo_id := some "r2" }]
      [{ filename := "f", local_path := "p1", repo_id := some "r1" }] =
      [{ filename := "f", local_path := "p1", repo_id := some "r2" }] ∧
    ¬ ∃ e ∈ _update_model_list [{ filename := "f", local_path := "p2", repo_id := some "r2" }]
        [{ filename := "f", local_path := "p1", repo_id := some "r1" }],
      e.filename = "f" ∧ e.local_path = "p2" := by
  decide

/-- C2 witness: the amended theorem applied to a concrete merge, showing the
prior entry's identity survives. -/
theorem C2_witness :
    ∃ e ∈ _update_model_list [{ filename := "g", local_path := "q2", repo_id := some "r" }]
      [({ filename := "g", local_path := "q", repo_id := none } : Model)],
      e.filename = "g" ∧ e.local_path = "q" := by
  exact (C2_merge_monotonicity
    [{ filename := "g", local_path := "q2", repo_id := some "r" }]
    [{ filename := "g", local_path := "q", repo_id := none }]).1
    { filename := "g", local_path := "q", repo_id := none } (by decide)

/-- C3: when the search worker exceeds the 60-unit ceiling, the orchestration
step yields the empty list of resolutions (not a partial list), the in-flight
future is signalled for cancellation, and `process` still returns normally
with the empty-result triple — no exception reaches the caller. -/
theorem C3_timeout_degradation (env : ScanEnv) (h : LOOKUP_TIMEOUT < env.searchElapsed) :
    validModels env = [] ∧
    (searchRun env).cancelSignalled = true ∧
    (∀ (md5 : String → String) (prompt : List (String × Node)) (sel : String) (st : DownloaderState),
      (sel = "" ∨ sel = "Scan First" ∨ st.last_workflow_hash ≠ some (_get_workflow_hash md5 prompt)) →
      process md5 env prompt sel st =
        .ok (("No valid models found", "", ""), { st with missing_models := [] })) := by
  have hn : ¬ env.searchElapsed ≤ LOOKUP_TIMEOUT := not_le.mpr h
  have hv : validModels env = [] := by
    unfold validModels searchRun _run_async_in_thread
    rw [if_neg hn]
    rfl
  have hc : (searchRun env).cancelSignalled = true := by
    unfold searchRun _run_async_in_thread
    rw [if_neg hn]
  refine ⟨hv, hc, ?_⟩
  intro md5 prompt sel st hb
  unfold process
  rw [if_pos hb, if_pos hv, hv]

/-- C3 witness: the theorem applied to a worker that takes 61 units, despite
its lookup resolving every filename. -/
theorem C3_witness :
    validModels c3env = [] ∧
    (searchRun c3env).cancelSignalled = true ∧
    process (fun _ => "h") c3env [] "Scan First"
      { missing_models := [], initialized := false, last_workflow_hash := none } =
      .ok (("No valid models found", "", ""),
        { missing_models := [], initialized := false, last_workflow_hash := none }) := by
  have h := C3_timeout_degradation c3env (by decide)
  exact ⟨h.1, h.2.1, h.2.2 (fun _ => "h") [] "Scan First"
    { missing_models := [], initialized := false, last_workflow_hash := none }
    (Or.inr (Or.inl rfl))⟩

/-- C4 (amended): a full scan+lookup cycle whose resolved set is empty returns
the sentinel triple `("No valid models found", "", "")` and leaves
`last_workflow_hash` UNCHANGED — the early return fires before the
`self.last_workflow_hash = current_hash` assignment, which only the non-empty
path reaches. -/
theorem C4_empty_cycle_keeps_fingerprint (md5 : String → String) (env : ScanEnv)
    (prompt : List (String × Node)) (sel : String) (st : DownloaderState)
    (hb : sel = "" ∨ sel = "Scan First" ∨ st.last_workflow_hash ≠ some (_get_workflow_hash md5 prompt))
    (hv : validModels env = []) :
    process md5 env prompt sel st =
      .ok (("No valid models found", "", ""), { st with missing_models := [] }) ∧
    (∀ (t : String × String × String) (st2 : DownloaderState),
      process md5 env prompt sel st = .ok (t, st2) →
      st2.last_workflow_hash = st.last_workflow_hash) := by
  have heq : process md5 env prompt sel st =
      .ok (("No valid models found", "", ""), { st with missing_models := [] }) := by
    unfold process
    rw [if_pos hb, if_pos hv, hv]
  refine ⟨heq, ?_⟩
  intro t st2 h2
  rw [heq] at h2
  simp only [Except.ok.injEq, Prod.mk.injEq] at h2
  rw [← h2.2]

/-- C4 counterexample: a scan finding zero references on a fresh state returns
the sentinel triple, yet the returned state's `last_workflow_hash` is still
`none` and NOT the current fingerprint `"h"`, contrary to the claim. -/
theorem C4_counterexample :
    process (fun _ => "h") c4env [] "Scan First"
      { missing_models := [], initialized := false, last_workflow_hash := none } =
      .ok (("No valid models found", "", ""),
        { missing_models := [], initialized := false, last_workflow_hash := none }) ∧
    _get_workflow_hash (fun _ => "h") ([] : List (String × Node)) = "h" ∧
    ({ missing_models := [], initialized := false, last_workflow_hash := none } :
      DownloaderState).last_workflow_hash ≠ some "h" := by
  decide

/-- C4 witness: the amended theorem applied to an empty scan with a stale
fingerprint. -/
theorem C4_witness :
    process (fun _ => "h") c4env [] ""
      { missing_models := [], initialized := true, last_workflow_hash := some "x" } =
      .ok (("No valid models found", "", ""),
        { missing_models := [], initialized := true, last_workflow_hash := some "x" }) := by
  exact (C4_empty_cycle_keeps_fingerprint (fun _ => "h") c4env [] ""
    { missing_models := [], initialized := true, last_workflow_hash := some "x" }
    (Or.inl rfl) (by decide)).1

/-- C5 (amended): selection fails with `Model not found` when no cached entry
has the requested filename; when the first matching entry's `repo_id` is
absent OR EMPTY it fails with `No repository found` (the code tests Python
truthiness of `get('repo_id', '')`, so a present-but-empty `repo_id` also
raises, contrary to the claim's absent-only reading); otherwise it returns
exactly the matching entry's triple; and on the selection branch `process`
returns the state unchanged. -/
theorem C5_selection_protocol (l : List Model) (sel : String) :
    ((∀ e ∈ l, e.filename ≠ sel) → selectModel l sel = .error .modelNotFound) ∧
    (∀ m, l.find? (fun e => decide (e.filename = sel)) = some m →
      ((m.repo_id.getD "" = "") → selectModel l sel = .error .noRepositoryFound) ∧
      (∀ r, m.repo_id = some r → r ≠ "" → selectModel l sel = .ok (r, m.filename, m.local_path))) ∧
    (∀ (md5 : String → String) (env : ScanEnv) (prompt : List (String × Node)) (st : DownloaderState),
      st.missing_models = l →
      ¬(sel = "" ∨ sel = "Scan First" ∨ st.last_workflow_hash ≠ some (_get_workflow_hash md5 prompt)) →
      process md5 env prompt sel st = Except.map (fun t => (t, st)) (selectModel l sel)) := by
  refine ⟨?_, ?_, ?_⟩
  · intro h
    have hf : l.find? (fun e => decide (e.filename = sel)) = none := by
      rw [List.find?_eq_none]
      intro x hx
      simp [h x hx]
    unfold selectModel
    rw [hf]
  · intro m hm
    constructor
    · intro hempty
      simp only [selectModel, hm]
      rw [if_pos hempty]
    · intro r hr hne
      simp only [selectModel, hm]
      have hgd : m.repo_id.getD "" = r := by rw [hr]; rfl
      rw [hgd, if_neg hne]
  · intro md5 env prompt st hmiss hnot
    have hnot2 : ¬(sel = "" ∨ sel = "Scan First") := by
      intro hc
      rcases hc with h1 | h2
      · exact hnot (Or.inl h1)
      · exact hnot (Or.inr (Or.inl h2))
    unfold process
    rw [if_neg hnot, if_neg hnot2, hmiss]

/-- C5 counterexample: a matching entry whose `repo_id` is PRESENT but empty
makes selection raise `No repository found` instead of returning the triple
`("", "f", "p")` the claim's absent-only failure condition would demand. -/
theorem C5_counterexample :
    selectModel [{ filename := "f", local_path := "p", repo_id := some "" }] "f" =
      .error .noRepositoryFound ∧
    selectModel [{ filename := "f", local_path := "p", repo_id := some "" }] "f" ≠
      .ok ("", "f", "p") := by
  decide

/-- C5 witness: the amended theorem applied to a missing filename and to a
resolved entry. -/
theorem C5_witness :
    selectModel [{ filename := "a", local_path := "q", repo_id := none }] "b" =
      .error .modelNotFound ∧
    selectModel [{ filename := "m", local_path := "lp", repo_id := some "org/repo" }] "m" =
      .ok ("org/repo", "m", "lp") := by
  constructor
  · exact (C5_selection_protocol [{ filename := "a", local_path := "q", repo_id := none }] "b").1
      (by decide)
  · exact ((C5_selection_protocol
      [{ filename := "m", local_path := "lp", repo_id := some "org/repo" }] "m").2.1
      { filename := "m", local_path := "lp", repo_id := some "org/repo" } (by decide)).2
      "org/repo" rfl (by decide)

/-- C6 (amended): a default-sentinel selection is never treated as a
validation failure — `process` can never raise `Select a model` (the branch
is dead code, because any absent/default selection is already routed to the
scan branch by the first condition), and with the selection absent or equal
to `"Scan First"` the call performs the full scan cycle and returns a triple
normally, whatever the fingerprint comparison says. -/
theorem C6_default_selection_rescans (md5 : String → String) (env : ScanEnv)
    (prompt : List (String × Node)) (sel : String) (st : DownloaderState) :
    process md5 env prompt sel st ≠ .error .selectAModel ∧
    ((sel = "" ∨ sel = "Scan First") → ∃ out, process md5 env prompt sel st = .ok out) := by
  constructor
  · by_cases hb : sel = "" ∨ sel = "Scan First" ∨ st.last_workflow_hash ≠ some (_get_workflow_hash md5 prompt)
    · rcases process_branch_ok md5 env prompt sel st hb with ⟨out, hout⟩
      rw [hout]
      simp
    · have hnot2 : ¬(sel = "" ∨ sel = "Scan First") := by
        intro hc
        rcases hc with h1 | h2
        · exact hb (Or.inl h1)
        · exact hb (Or.inr (Or.inl h2))
      unfold process
      rw [if_neg hb, if_neg hnot2]
      intro hc
      cases hsel : selectModel st.missing_models sel with
      | ok t => rw [hsel] at hc; simp [Except.map] at hc
      | error e =>
        rw [hsel] at hc
        simp [Except.map] at hc
        rw [hc] at hsel
        exact selectModel_not_selectAModel st.missing_models sel hsel
  · intro hd
    have hb : sel = "" ∨ sel = "Scan First" ∨ st.last_workflow_hash ≠ some (_get_workflow_hash md5 prompt) := by
      rcases hd with h1 | h2
      · exact Or.inl h1
      · exact Or.inr (Or.inl h2)
    exact process_branch_ok md5 env prompt sel st hb

/-- C6 counterexample: with the fingerprint UNCHANGED (`some "h"` equals the
current hash) and the default sentinel `"Scan First"` requested, `process`
performs a fresh scan+lookup cycle and returns the resolved triple — it does
not raise the `Select a model` validation error the claim requires. -/
theorem C6_counterexample :
    process (fun _ => "h") c6env [] "Scan First"
      { missing_models := [], initialized := false, last_workflow_hash := some "h" } =
      .ok (("rA", "A", "p"),
        { missing_models := [{ filename := "A", local_path := "p", repo_id := some "rA" }],
          initialized := false, last_workflow_hash := some "h" }) ∧
    process (fun _ => "h") c6env [] "Scan First"
      { missing_models := [], initialized := false, last_workflow_hash := some "h" } ≠
      .error .selectAModel := by
  decide

/-- C6 witness: the amended theorem applied to the unchanged-fingerprint
default-selection call. -/
theorem C6_witness :
    ∃ out, process (fun _ => "h") c6env [] "Scan First"
      { missing_models := [], initialized := false, last_workflow_hash := some "h" } = .ok out := by
  exact (C6_default_selection_rescans (fun _ => "h") c6env [] "Scan First"
    { missing_models := [], initialized := false, last_workflow_hash := some "h" }).2
    (Or.inr rfl)

/-- C7: inserting a node whose `class_type` is `'Auto Model Downloader'` at
any position of the workflow mapping (under a fresh node id, as a dict insert
of a new node is) leaves `_get_workflow_hash` unchanged for every digest:
only non-excluded nodes contribute to the hash. Read right-to-left the same
equation covers removal of such a node. -/
theorem C7_exclusion_invariance (md5 : String → String) (p1 p2 : List (String × Node))
    (k : String) (v : Node)
    (hv : v.class_type = some "Auto Model Downloader")
    (hk : k ∉ (p1 ++ p2).map Prod.fst) :
    _get_workflow_hash md5 (p1 ++ (k, v) :: p2) = _get_workflow_hash md5 (p1 ++ p2) := by
  have hfilter : filtered_prompt (p1 ++ (k, v) :: p2) = filtered_prompt (p1 ++ p2) := by
    unfold filtered_prompt
    simp [List.filter_append, hv]
  unfold _get_workflow_hash
  rw [hfilter]

/-- C7 witness: the theorem applied to a one-loader workflow plus a downloader
node. -/
theorem C7_witness :
    _get_workflow_hash (fun s => s)
      [("1", { class_type := some "CheckpointLoaderSimple", fields := [("ckpt", "model.safetensors")] }),
       ("2", { class_type := some "Auto Model Downloader", fields := [] })] =
    _get_workflow_hash (fun s => s)
      [("1", { class_type := some "CheckpointLoaderSimple", fields := [("ckpt", "model.safetensors")] })] := by
  exact C7_exclusion_invariance (fun s => s)
    [("1", { class_type := some "CheckpointLoaderSimple", fields := [("ckpt", "model.safetensors")] })]
    [] "2" { class_type := some "Auto Model Downloader", fields := [] } rfl (by decide)

/-- C8: the dedup pass is idempotent, returns a sublist of its input (so the
survivors keep their first-seen order and dedup is a pure function of the
input list), covers every (filename, local_path) key occurring in the input,
and every survivor is the FIRST input occurrence of its key. -/
theorem C8_dedupe_idempotent_stable (l : List Model) :
    dedupe (dedupe l) = dedupe l ∧
    List.Sublist (dedupe l) l ∧
    (∀ m ∈ l, ∃ m2 ∈ dedupe l, dedupeKey m2 = dedupeKey m) ∧
    (∀ m ∈ dedupe l, l.find? (fun x => decide (dedupeKey x = dedupeKey m)) = some m) := by
  refine ⟨dedupeAux_idem l [], dedupeAux_sublist l [], ?_, ?_⟩
  · intro m hm
    exact dedupeAux_covers l [] m hm (by simp)
  · intro m hm
    exact (dedupeAux_first l [] m hm).2

/-- C8 witness: the theorem applied to a two-duplicate list — the first
occurrence is kept and its key is still covered. -/
theorem C8_witness :
    dedupe [({ filename := "f", local_path := "p", repo_id := none } : Model),
            { filename := "f", local_path := "p", repo_id := some "x" }] =
      [{ filename := "f", local_path := "p", repo_id := none }] ∧
    (∃ m2 ∈ dedupe [({ filename := "f", local_path := "p", repo_id := none } : Model),
            { filename := "f", local_path := "p", repo_id := some "x" }],
      dedupeKey m2 = ("f", "p")) := by
  constructor
  · decide
  · exact (C8_dedupe_idempotent_stable
      [{ filename := "f", local_path := "p", repo_id := none },
       { filename := "f", local_path := "p", repo_id := some "x" }]).2.2.1
      { filename := "f", local_path := "p", repo_id := some "x" } (by decide)

/-- C9: `deserialize` applied to the record produced by `serialize` restores
all three fields — `missing_models`, `initialized`, `last_workflow_hash` — to
the serialized values, whatever state the restoring instance held before. -/
theorem C9_serialize_roundtrip (st st0 : DownloaderState) :
    deserialize (serialize st) st0 = st := by
  cases st
  rfl

/-- C10: after any `process` call that takes the scan branch and returns
normally, every entry of the returned state's `missing_models` has a present,
non-empty `repo_id` — unresolved references are dropped from the cache, not
stored. -/
theorem C10_rescan_only_resolved (md5 : String → String) (env : ScanEnv)
    (prompt : List (String × Node)) (sel : String) (st : DownloaderState)
    (hb : sel = "" ∨ sel = "Scan First" ∨ st.last_workflow_hash ≠ some (_get_workflow_hash md5 prompt)) :
    ∀ (t : String × String × String) (st2 : DownloaderState),
      process md5 env prompt sel st = .ok (t, st2) →
      ∀ e ∈ st2.missing_models, ∃ r, e.repo_id = some r ∧ r ≠ "" := by
  intro t st2 h e he
  unfold process at h
  rw [if_pos hb] at h
  by_cases hv : validModels env = []
  · rw [if_pos hv] at h
    simp only [Except.ok.injEq, Prod.mk.injEq] at h
    rw [← h.2] at he
    simp only [hv] at he
    cases he
  · rw [if_neg hv] at h
    simp only [Except.ok.injEq, Prod.mk.injEq] at h
    rw [← h.2] at he
    simp only at he
    exact uml_resolved (validModels env) (validModels env)
      (validModels_resolved env) (validModels_resolved env) e he

/-- C10 witness: the theorem applied to a concrete scan cycle resolving one
reference to `org/repo`. -/
theorem C10_witness :
    ∃ r, ({ filename := "M", local_path := "lp", repo_id := some "org/repo" } : Model).repo_id =
      some r ∧ r ≠ "" := by
  have h := C10_rescan_only_resolved (fun _ => "h") c10env [] "Scan First"
    { missing_models := [], initialized := false, last_workflow_hash := none }
    (Or.inr (Or.inl rfl))
    ("org/repo", "M", "lp")
    { missing_models := [{ filename := "M", local_path := "lp", repo_id := some "org/repo" }],
      initialized := false, last_workflow_hash := some "h" }
    (by decide)
  exact h { filename := "M", local_path := "lp", repo_id := some "org/repo" } (by decide)

end AutoModelDownloader
